import Mathlib

/-!
# Verification of the vite-site document extraction pipeline

Shallow embedding of the client-side parse → markdown → extract → validate
→ export pipeline of the `chipsxp/vite-site` repository:

* `src/components/PdfExtractionWorkflow.tsx` (parse workflow state),
* `src/components/BookExtractor.tsx` (extract workflow state, zod validation),
* `src/schema/books.ts` (`DocumentExtractionSchema`),
* `src/utils/exportMarkdown.ts` (markdown export and filename generation).

JavaScript strings are modelled as Lean `String`/`List Char`; JavaScript's
`String.prototype.trim`, the regex class `\s` and `String.prototype.trim`'s
whitespace set are all modelled by `Char.isWhitespace` (the source only ever
meets ASCII whitespace).  JSON numbers are modelled as `Int`: every payload
number is an integer, so zod's `.int()` refinement is always satisfied and the
interesting checks (`.positive()`, wrong primitive type) are kept.
-/

namespace ViteSite

/-! ## List-level string helpers (JS `trim`, regex replaces) -/

/-- JS `String.prototype.trim` on a character list: drop leading and trailing
whitespace. -/
def trimWsList (l : List Char) : List Char :=
  ((l.dropWhile Char.isWhitespace).reverse.dropWhile Char.isWhitespace).reverse

/-- JS `String.prototype.trim`. -/
def jsTrim (s : String) : String :=
  String.mk (trimWsList s.data)

/-- Lowercase ASCII letters and digits: the alphanumeric part of the
character class kept by `sanitizeFilename`. -/
def lowerAlnum (c : Char) : Bool :=
  ('a' ≤ c && c ≤ 'z') || ('0' ≤ c && c ≤ '9')

/-- Characters kept by the regex replace `/[^a-z0-9\s-]/g → ""` in
`sanitizeFilename` (applied after lower-casing): lowercase letters, digits,
whitespace and hyphens. -/
def keepChar (c : Char) : Bool :=
  lowerAlnum c || c.isWhitespace || c = '-'

/-- The regex replace `/\s+/g → "-"`: each maximal run of whitespace becomes a
single hyphen.  The flag records whether the previous character was
whitespace (i.e. whether we are inside a run that already emitted its
hyphen). -/
def replaceWsRuns (inRun : Bool) : List Char → List Char
  | [] => []
  | c :: cs =>
    if c.isWhitespace then
      (if inRun then [] else ['-']) ++ replaceWsRuns true cs
    else
      c :: replaceWsRuns false cs

/-- The regex replace of one-or-more hyphens (`"-+"`, global) with `"-"`:
each maximal run of hyphens becomes a single hyphen. -/
def collapseHyphens (inRun : Bool) : List Char → List Char
  | [] => []
  | c :: cs =>
    if c = '-' then
      (if inRun then [] else ['-']) ++ collapseHyphens true cs
    else
      c :: collapseHyphens false cs

/-! ## JSON values and the zod `DocumentExtractionSchema`

`src/schema/books.ts` declares (via zod) an object schema with seven
optional-and-nullable fields; `BookExtractor.handleExtract` runs
`schema.safeParse` on the `extraction` payload and aggregates the issues.
A zod issue is a pair of a field path and a message; array indices inside a
path are stringified exactly as `issue.path.join(".")` does. -/

/-- A JSON value (numbers restricted to integers, see the file comment). -/
inductive Json where
  | null
  | bool (b : Bool)
  | num (n : Int)
  | str (s : String)
  | arr (elems : List Json)
  | obj (fields : List (String × Json))

/-- JS truthiness of a decoded JSON value (used by
`if (!extractResponse.extraction)`). -/
def Json.truthy : Json → Bool
  | .null => false
  | .bool b => b
  | .num n => n ≠ 0
  | .str s => s ≠ ""
  | .arr _ => true
  | .obj _ => true

/-- The `typeof`-style name zod puts into "Expected …, received …" messages. -/
def Json.typeName : Json → String
  | .null => "null"
  | .bool _ => "boolean"
  | .num _ => "number"
  | .str _ => "string"
  | .arr _ => "array"
  | .obj _ => "object"

/-- A zod issue: field path plus message. -/
abbrev Issue := List String × String

/-- Property lookup on a decoded JSON object (JS object keys are unique). -/
def getField (fields : List (String × Json)) (key : String) : Option Json :=
  (fields.find? (fun p => p.1 == key)).map (·.2)

/-- The nested `publisher` record of `DocumentExtractionSchema`:
`{ name?: string | null, location?: string | null }`.  `none` means the key
was absent, `some none` that it was `null`. -/
structure Publisher where
  name : Option (Option String) := none
  location : Option (Option String) := none
deriving Repr, DecidableEq

/-- The record produced by `DocumentExtractionSchema` (the zod-inferred
`DocumentExtraction` type).  Every field is optional and nullable:
`none` = absent/`undefined`, `some none` = `null`, `some (some v)` = value. -/
structure DocumentExtraction where
  title : Option (Option String) := none
  authors : Option (Option (List String)) := none
  publishedYear : Option (Option Int) := none
  genres : Option (Option (List String)) := none
  pages : Option (Option Int) := none
  language : Option (Option String) := none
  publisher : Option (Option Publisher) := none
deriving Repr, DecidableEq

/-- Issues of a field result (`[]` when the field parsed fine). -/
def errsOf {α : Type} : Except (List Issue) α → List Issue
  | .ok _ => []
  | .error es => es

/-- Parsed value of an optional-nullable field result (`none` when the field
errored; only read on the all-ok path). -/
def valOf {α : Type} : Except (List Issue) (Option (Option α)) → Option (Option α)
  | .ok v => v
  | .error _ => none

/-- Model of `z.string()` at a given path. -/
def checkString (path : List String) : Json → Except (List Issue) String
  | .str s => .ok s
  | v => .error [(path, "Expected string, received " ++ v.typeName)]

/-- Model of `z.number().int()` at a given path (the `.int()` refinement always holds
in the integer model). -/
def checkInt (path : List String) : Json → Except (List Issue) Int
  | .num n => .ok n
  | v => .error [(path, "Expected number, received " ++ v.typeName)]

/-- Model of `z.number().int().positive()` at a given path. -/
def checkPositiveInt (path : List String) : Json → Except (List Issue) Int
  | .num n =>
    if 0 < n then .ok n
    else .error [(path, "Number must be greater than 0")]
  | v => .error [(path, "Expected number, received " ++ v.typeName)]

/-- Model of `z.array(z.string())` at a given path; element issues carry the element
index in the path, and all element issues are collected. -/
def checkStringArray (path : List String) : Json → Except (List Issue) (List String)
  | .arr elems =>
    let issues := elems.enum.filterMap (fun p =>
      match p.2 with
      | .str _ => none
      | v => some ((path ++ [toString p.1], "Expected string, received " ++ v.typeName) : Issue))
    if issues = [] then
      .ok (elems.filterMap (fun e => match e with | .str s => some s | _ => none))
    else
      .error issues
  | v => .error [(path, "Expected array, received " ++ v.typeName)]

/-- Apply a field check through `.optional().nullable()`: an absent key parses
to `none`, an explicit `null` to `some none`, anything else runs the
underlying check. -/
def parseOptNullable {α : Type} (check : Json → Except (List Issue) α) :
    Option Json → Except (List Issue) (Option (Option α))
  | none => .ok none
  | some .null => .ok (some none)
  | some v =>
    match check v with
    | .ok a => .ok (some (some a))
    | .error es => .error es

/-- The nested publisher object schema
`z.object({ name: …, location: … }).optional().nullable()`'s inner check. -/
def checkPublisher (path : List String) : Json → Except (List Issue) Publisher
  | .obj fs =>
    let rName := parseOptNullable (checkString (path ++ ["name"])) (getField fs "name")
    let rLoc := parseOptNullable (checkString (path ++ ["location"])) (getField fs "location")
    let issues := errsOf rName ++ errsOf rLoc
    if issues = [] then .ok { name := valOf rName, location := valOf rLoc }
    else .error issues
  | v => .error [(path, "Expected object, received " ++ v.typeName)]

/-- All issues collected across the seven declared fields of
`DocumentExtractionSchema`, in declaration order. -/
def documentIssues (fields : List (String × Json)) : List Issue :=
  errsOf (parseOptNullable (checkString ["title"]) (getField fields "title")) ++
  errsOf (parseOptNullable (checkStringArray ["authors"]) (getField fields "authors")) ++
  errsOf (parseOptNullable (checkInt ["publishedYear"]) (getField fields "publishedYear")) ++
  errsOf (parseOptNullable (checkStringArray ["genres"]) (getField fields "genres")) ++
  errsOf (parseOptNullable (checkPositiveInt ["pages"]) (getField fields "pages")) ++
  errsOf (parseOptNullable (checkString ["language"]) (getField fields "language")) ++
  errsOf (parseOptNullable (checkPublisher ["publisher"]) (getField fields "publisher"))

namespace DocumentExtractionSchema

/-- Model of `DocumentExtractionSchema.safeParse`: validate a decoded payload.
Unknown keys are stripped (zod's default object mode); the seven declared
fields are checked in declaration order and all issues are aggregated. -/
def safeParse (j : Json) : Except (List Issue) DocumentExtraction :=
  match j with
  | .obj fields =>
    if documentIssues fields = [] then
      .ok { title := valOf (parseOptNullable (checkString ["title"]) (getField fields "title")),
            authors := valOf (parseOptNullable (checkStringArray ["authors"]) (getField fields "authors")),
            publishedYear := valOf (parseOptNullable (checkInt ["publishedYear"]) (getField fields "publishedYear")),
            genres := valOf (parseOptNullable (checkStringArray ["genres"]) (getField fields "genres")),
            pages := valOf (parseOptNullable (checkPositiveInt ["pages"]) (getField fields "pages")),
            language := valOf (parseOptNullable (checkString ["language"]) (getField fields "language")),
            publisher := valOf (parseOptNullable (checkPublisher ["publisher"]) (getField fields "publisher")) }
    else
      .error (documentIssues fields)
  | v => .error [([], "Expected object, received " ++ v.typeName)]

end DocumentExtractionSchema

/-- Model of `issue.path.join(".")` in `BookExtractor.handleExtract`. -/
def pathJoin (path : List String) : String :=
  String.intercalate "." path

/-- The aggregation in `BookExtractor.handleExtract` (lines 156–160): each
issue formatted as `<field path>: <violation>`, joined by `", "`. -/
def formatIssues (issues : List Issue) : String :=
  String.intercalate ", " (issues.map (fun i => pathJoin i.1 ++ ": " ++ i.2))

/-- The message of the error thrown on schema validation failure. -/
def validationFailureMessage (issues : List Issue) : String :=
  "Schema validation failed: " ++ formatIssues issues

/-! ## Export formatter (`src/utils/exportMarkdown.ts`) -/

/-- JS truthiness of an optional-nullable string field (`if (data.title)`):
present, non-null and non-empty. -/
def strTruthy : Option (Option String) → Option String
  | some (some s) => if s = "" then none else some s
  | _ => none

/-- JS truthiness of an optional-nullable integer field
(`if (data.publishedYear)`): present, non-null and non-zero. -/
def intTruthy : Option (Option Int) → Option Int
  | some (some n) => if n = 0 then none else some n
  | _ => none

/-- Model of `sanitizeFilename` (`exportMarkdown.ts` lines 7–14): lower-case, strip
characters other than lowercase alphanumerics, whitespace and hyphens,
replace whitespace runs by single hyphens, collapse hyphen runs, then JS
`trim()` — which removes only whitespace, of which none is left. -/
def sanitizeFilename (title : String) : String :=
  String.mk (trimWsList (collapseHyphens false (replaceWsRuns false
    ((title.data.map Char.toLower).filter keepChar))))

/-- Drop leading and trailing hyphens from a character list (used only by the
spec-side slug description below; the source never does this). -/
def trimHyphens (l : List Char) : List Char :=
  ((l.dropWhile (· == '-')).reverse.dropWhile (· == '-')).reverse

/-- The slug exactly as the spec (§4.4) and claim C2 describe it:
"lower-cased, non-alphanumeric characters other than space/hyphen stripped,
whitespace runs collapsed to single hyphens, repeated hyphens collapsed,
leading/trailing hyphens trimmed".  Written from the spec's words, to be
compared with the source's `sanitizeFilename`. -/
def claimedSlug (t : String) : String :=
  String.mk (trimHyphens (collapseHyphens false (replaceWsRuns false
    ((t.data.map Char.toLower).filter keepChar))))

/-- Map a whitespace character to a hyphen, keep anything else. -/
def wsToHyphen (c : Char) : Char :=
  if c.isWhitespace then '-' else c

/-- The slug of the amended claim C2: as `claimedSlug` but without the final
hyphen trimming — every whitespace character becomes a hyphen and hyphen
runs are collapsed.  An independent formulation (character map instead of
run replacement) to compare with the source's `sanitizeFilename`. -/
def amendedSlug (t : String) : String :=
  String.mk (collapseHyphens false
    (((t.data.map Char.toLower).filter keepChar).map wsToHyphen))

/-- A calendar date as read off a JS `Date` (`getFullYear`, human month
`getMonth() + 1`, `getDate`). -/
structure Date where
  year : Nat
  month : Nat
  day : Nat
deriving Repr, DecidableEq

/-- Model of `String(n).padStart(2, "0")`. -/
def padStart2 (s : String) : String :=
  if s.length < 2 then String.mk (List.replicate (2 - s.length) '0') ++ s else s

/-- Model of `formatDate` (`exportMarkdown.ts` lines 19–25), parameterised by the
current date. -/
def formatDate (d : Date) : String :=
  toString d.year ++ "-" ++ padStart2 (toString d.month) ++ "-" ++ padStart2 (toString d.day)

/-- Model of `generateFilename` (`exportMarkdown.ts` lines 96–102), parameterised by
the current date: a pure function of the record and the date. -/
def generateFilename (data : DocumentExtraction) (d : Date) : String :=
  let date := formatDate d
  let titlePart :=
    match strTruthy data.title with
    | some t => sanitizeFilename t
    | none => "untitled-document"
  date ++ "-" ++ titlePart ++ ".md"

/-- The filename exactly as claim C2 describes it: date, hyphen, then the
claimed slug (with leading/trailing hyphens trimmed) or the fallback slug,
then the `.md` suffix.  Written from the claim's words, to be compared with
the source's `generateFilename`. -/
def claimedFilename (data : DocumentExtraction) (d : Date) : String :=
  formatDate d ++ "-" ++
    (match strTruthy data.title with
     | some t => claimedSlug t
     | none => "untitled-document") ++ ".md"

/-- The trailing document-content sections of `generateMarkdownContent`
(lines 83–87): emitted only when a full markdown text was supplied and is
non-blank. -/
def docContentSections (fullMarkdown : Option String) : List String :=
  match fullMarkdown with
  | some fm => if fm ≠ "" ∧ jsTrim fm ≠ "" then ["\n---\n", "## Document Content\n", fm] else []
  | none => []

/-- The publisher metadata section (lines 60–71). -/
def publisherSections (pub : Option (Option Publisher)) : List String :=
  match pub with
  | some (some p) =>
    let parts := (match strTruthy p.name with | some n => [n] | none => []) ++
      (match strTruthy p.location with | some l => ["(" ++ l ++ ")"] | none => [])
    if 0 < parts.length then ["**Publisher:** " ++ String.intercalate " " parts ++ "\n"]
    else []
  | _ => []

/-- The `sections` array built by `generateMarkdownContent`
(`exportMarkdown.ts` lines 30–89), parameterised by the timestamp string
`new Date().toLocaleString()` produces.  Pushes happen in the source's fixed
order: title, metadata heading, authors, year, pages, language, publisher,
genres, separator, timestamp, method, then the optional document content. -/
def markdownSections (data : DocumentExtraction) (now : String)
    (fullMarkdown : Option String) : List String :=
  (match strTruthy data.title with | some t => ["# " ++ t ++ "\n"] | none => []) ++
  ["## Metadata\n"] ++
  (match data.authors with
   | some (some as) => if 0 < as.length then ["**Authors:** " ++ String.intercalate ", " as ++ "\n"] else []
   | _ => []) ++
  (match intTruthy data.publishedYear with
   | some y => ["**Published Year:** " ++ toString y ++ "\n"] | none => []) ++
  (match intTruthy data.pages with
   | some p => ["**Pages:** " ++ toString p ++ "\n"] | none => []) ++
  (match strTruthy data.language with
   | some l => ["**Language:** " ++ l ++ "\n"] | none => []) ++
  publisherSections data.publisher ++
  (match data.genres with
   | some (some gs) => if 0 < gs.length then ["**Genres:** " ++ String.intercalate ", " gs ++ "\n"] else []
   | _ => []) ++
  ["\n---\n", "*Extracted on: " ++ now ++ "*\n", "*Extraction method: ADE PDF Parse & Extract*\n"] ++
  docContentSections fullMarkdown

/-- Model of `generateMarkdownContent`: `sections.join("\n")`. -/
def generateMarkdownContent (data : DocumentExtraction) (now : String)
    (fullMarkdown : Option String) : String :=
  String.intercalate "\n" (markdownSections data now fullMarkdown)

/-! ## Markdown normalizer and parse workflow
(`src/components/PdfExtractionWorkflow.tsx`) -/

/-- A parse-response fragment: `{ markdown?: string }`. -/
structure Chunk where
  markdown : Option String
deriving Repr, DecidableEq

/-- The parse response: `{ chunks?: Array<{ markdown?: string }> }`. -/
structure ParseResponse where
  chunks : Option (List Chunk)
deriving Repr, DecidableEq

/-- Model of `chunk.markdown || ""`. -/
def chunkText (c : Chunk) : String :=
  c.markdown.getD ""

/-- The normalizer body (`PdfExtractionWorkflow.tsx` lines 59–63): map each
fragment to its text or `""`, drop blank entries, join by a double
line-break. -/
def normalizeChunks (chunks : List Chunk) : String :=
  String.intercalate "\n\n"
    ((chunks.map chunkText).filter (fun s => decide (0 < (jsTrim s).length)))

/-- Model of `parseResponse.chunks?.map(…).filter(…).join("\n\n") ?? ""`. -/
def parsedMarkdown (resp : ParseResponse) : String :=
  match resp.chunks with
  | some cs => normalizeChunks cs
  | none => ""

/-- The component's `status` state: the source's union type is
`"idle" | "parsing"`. -/
inductive Status where
  | idle
  | parsing
deriving Repr, DecidableEq

/-- The `PdfExtractionWorkflow` component state (files are represented by
their names; only presence matters). -/
structure WorkflowState where
  selectedFile : Option String
  status : Status
  markdown : String
  parseError : String
deriving Repr, DecidableEq

/-- The spec's `error` state of the orchestrator: the component realises it
as a non-empty `parseError` message (rendered as the error banner). -/
def errorState (w : WorkflowState) : Prop :=
  w.parseError ≠ ""

/-- How the awaited parse `fetch` can settle: a transport failure (the
rejection's `Error` message), a non-success HTTP status (with the response
body text), or a decoded JSON response. -/
inductive ParseOutcome where
  | transportFail (message : String)
  | httpError (body : String)
  | ok (resp : ParseResponse)

/-- The state right after the `try` block's first three `set` calls
(lines 40–42): status `parsing`, error and markdown cleared. -/
def parseStarted (s : WorkflowState) : WorkflowState :=
  { s with status := .parsing, parseError := "", markdown := "" }

/-- Settle the awaited parse call from the in-flight state (lines 48–81):
errors land in `catch`, which resets status to `idle` and surfaces the
message. -/
def settleParse (outcome : ParseOutcome) (s : WorkflowState) : WorkflowState :=
  match outcome with
  | .transportFail msg => { s with status := .idle, parseError := msg }
  | .httpError body =>
    { s with status := .idle, parseError := "Parse request failed: " ++ body }
  | .ok resp =>
    let pm := parsedMarkdown resp
    if jsTrim pm = "" then
      { s with status := .idle,
               parseError := "Parsing completed but no markdown content was returned." }
    else
      { s with markdown := pm, status := .idle }

/-- Model of `handleParsePdf` (lines 26–82), with the async call collapsed to its
outcome: guard on the client and the selected file, then run the parse and
settle it. -/
def handleParsePdf (clientReady : Bool) (outcome : ParseOutcome)
    (s : WorkflowState) : WorkflowState :=
  if ¬clientReady then
    { s with parseError := "ADE client is not ready yet. Please wait a moment and retry." }
  else if s.selectedFile.isNone then
    { s with parseError := "Please choose a document (PDF or PPTX) before parsing." }
  else
    settleParse outcome (parseStarted s)

/-- Model of `handleFileChange` (lines 19–24): select `files[0] ?? null` and clear
markdown and error. -/
def handleFileChange (files : List String) (s : WorkflowState) : WorkflowState :=
  { s with selectedFile := files.head?, markdown := "", parseError := "" }

/-- The JSX mounts `BookExtractor` only when `markdown` is truthy
(line 134): with empty markdown the extractor is unmounted and its state
(including any extraction record) is discarded. -/
def rendersBookExtractor (w : WorkflowState) : Bool :=
  w.markdown ≠ ""

/-- The `BookExtractor` component state. -/
structure ExtractorState where
  isExtracting : Bool
  extractedBook : Option DocumentExtraction
  extractedMarkdown : String
  error : String
deriving Repr, DecidableEq

/-- The extraction record visible in the UI: the workflow shows the
extractor's result only while the extractor is mounted. -/
def visibleExtraction (w : WorkflowState) (e : ExtractorState) :
    Option DocumentExtraction :=
  if rendersBookExtractor w then e.extractedBook else none

/-- How the awaited extract `fetch` can settle: transport failure, non-success
HTTP status (with response body), or a decoded response whose optional
`extraction` field holds an arbitrary payload. -/
inductive ExtractOutcome where
  | transportFail (message : String)
  | httpError (body : String)
  | ok (extraction : Option Json)

/-- Model of `handleExtract` (`BookExtractor.tsx` lines 97–186), with the async call
collapsed to its outcome.  Returns the new component state and whether a
network request was issued. -/
def handleExtract (markdownContent : String) (outcome : ExtractOutcome)
    (s : ExtractorState) : ExtractorState × Bool :=
  if markdownContent = "" ∨ (jsTrim markdownContent).length = 0 then
    ({ s with error := "No markdown content provided for extraction." }, false)
  else
    let s1 : ExtractorState :=
      { s with isExtracting := true, error := "", extractedBook := none }
    match outcome with
    | .transportFail msg => ({ s1 with isExtracting := false, error := msg }, true)
    | .httpError body =>
      ({ s1 with isExtracting := false,
                 error := "Extract request failed: " ++ body }, true)
    | .ok ext =>
      match ext with
      | none =>
        ({ s1 with isExtracting := false,
                   error := "ADE returned an empty extraction result." }, true)
      | some payload =>
        if ¬payload.truthy then
          ({ s1 with isExtracting := false,
                     error := "ADE returned an empty extraction result." }, true)
        else
          match DocumentExtractionSchema.safeParse payload with
          | .error issues =>
            ({ s1 with isExtracting := false,
                       error := validationFailureMessage issues }, true)
          | .ok book =>
            ({ s1 with isExtracting := false, extractedBook := some book,
                       extractedMarkdown := markdownContent }, true)

/-! ## Helper lemmas -/

theorem dropWhile_eq_self_of {p : Char → Bool} {l : List Char}
    (h : ∀ c ∈ l, p c = false) : l.dropWhile p = l := by
  cases l with
  | nil => rfl
  | cons c cs =>
    rw [List.dropWhile_cons, h c (List.mem_cons_self c cs)]
    simp

theorem mem_of_mem_dropWhile {p : Char → Bool} {c : Char} :
    ∀ {l : List Char}, c ∈ l.dropWhile p → c ∈ l
  | [], h => by simp [List.dropWhile] at h
  | a :: l, h => by
    rw [List.dropWhile_cons] at h
    by_cases hp : p a = true
    · rw [if_pos hp] at h
      exact List.mem_cons_of_mem _ (mem_of_mem_dropWhile h)
    · rw [if_neg hp] at h
      exact h

theorem mem_of_mem_trimWsList {c : Char} {l : List Char}
    (h : c ∈ trimWsList l) : c ∈ l := by
  unfold trimWsList at h
  rw [List.mem_reverse] at h
  have h1 := mem_of_mem_dropWhile h
  rw [List.mem_reverse] at h1
  exact mem_of_mem_dropWhile h1

theorem trimWsList_eq_self {l : List Char}
    (h : ∀ c ∈ l, c.isWhitespace = false) : trimWsList l = l := by
  unfold trimWsList
  rw [dropWhile_eq_self_of h]
  rw [dropWhile_eq_self_of (fun c hc => h c (List.mem_reverse.1 hc))]
  exact List.reverse_reverse l

theorem mem_replaceWsRuns {c : Char} {l : List Char} :
    ∀ {b : Bool}, c ∈ replaceWsRuns b l → c = '-' ∨ (c ∈ l ∧ c.isWhitespace = false) := by
  induction l with
  | nil => intro b h; simp [replaceWsRuns] at h
  | cons a cs ih =>
    intro b h
    by_cases hw : a.isWhitespace = true
    · rw [replaceWsRuns, if_pos hw] at h
      rcases List.mem_append.1 h with h1 | h2
      · left
        cases b with
        | true => simp at h1
        | false => simpa using h1
      · rcases ih h2 with h3 | ⟨h4, h5⟩
        · exact Or.inl h3
        · exact Or.inr ⟨List.mem_cons_of_mem _ h4, h5⟩
    · rw [replaceWsRuns, if_neg hw] at h
      rcases List.mem_cons.1 h with rfl | h2
      · exact Or.inr ⟨List.mem_cons_self _ _, Bool.eq_false_iff.2 hw⟩
      · rcases ih h2 with h3 | ⟨h4, h5⟩
        · exact Or.inl h3
        · exact Or.inr ⟨List.mem_cons_of_mem _ h4, h5⟩

theorem no_ws_in_replaceWsRuns {c : Char} {b : Bool} {l : List Char}
    (h : c ∈ replaceWsRuns b l) : c.isWhitespace = false := by
  rcases mem_replaceWsRuns h with rfl | ⟨_, h5⟩
  · rfl
  · exact h5

theorem mem_of_mem_collapseHyphens {c : Char} {l : List Char} :
    ∀ {b : Bool}, c ∈ collapseHyphens b l → c ∈ l := by
  induction l with
  | nil => intro b h; simp [collapseHyphens] at h
  | cons a cs ih =>
    intro b h
    by_cases hh : a = '-'
    · rw [collapseHyphens, if_pos hh] at h
      rcases List.mem_append.1 h with h1 | h2
      · cases b with
        | true => simp at h1
        | false =>
          simp only [Bool.false_eq_true, if_false, List.mem_singleton] at h1
          subst h1
          rw [hh]
          exact List.mem_cons_self _ _
      · exact List.mem_cons_of_mem _ (ih h2)
    · rw [collapseHyphens, if_neg hh] at h
      rcases List.mem_cons.1 h with rfl | h2
      · exact List.mem_cons_self _ _
      · exact List.mem_cons_of_mem _ (ih h2)

theorem collapseHyphens_replaceWsRuns_flag (l : List Char) :
    collapseHyphens true (replaceWsRuns false l) =
      collapseHyphens true (replaceWsRuns true l) := by
  cases l with
  | nil => rfl
  | cons c cs =>
    by_cases hw : c.isWhitespace = true
    · rw [replaceWsRuns, if_pos hw, replaceWsRuns, if_pos hw]
      norm_num
      rw [collapseHyphens, if_pos rfl]
      norm_num
    · rw [replaceWsRuns, if_neg hw, replaceWsRuns, if_neg hw]

theorem collapseHyphens_replaceWsRuns (l : List Char) :
    ∀ b : Bool, collapseHyphens b (replaceWsRuns b l) =
      collapseHyphens b (l.map wsToHyphen) := by
  induction l with
  | nil => intro b; rfl
  | cons c cs ih =>
    intro b
    by_cases hw : c.isWhitespace = true
    · have hc : wsToHyphen c = '-' := by rw [wsToHyphen, if_pos hw]
      rw [List.map_cons, hc]
      cases b with
      | true =>
        rw [replaceWsRuns, if_pos hw]
        norm_num
        rw [collapseHyphens, if_pos rfl]
        norm_num
        exact ih true
      | false =>
        rw [replaceWsRuns, if_pos hw]
        norm_num
        rw [collapseHyphens, if_pos rfl, collapseHyphens, if_pos rfl]
        norm_num
        exact ih true
    · have hc : wsToHyphen c = c := by rw [wsToHyphen, if_neg hw]
      rw [List.map_cons, hc]
      rw [replaceWsRuns, if_neg hw]
      by_cases hh : c = '-'
      · rw [collapseHyphens, if_pos hh, collapseHyphens, if_pos hh]
        exact congrArg _ ((collapseHyphens_replaceWsRuns_flag cs).trans (ih true))
      · rw [collapseHyphens, if_neg hh, collapseHyphens, if_neg hh]
        exact congrArg _ (ih false)

theorem sanitizeFilename_eq_amendedSlug (t : String) :
    sanitizeFilename t = amendedSlug t := by
  unfold sanitizeFilename amendedSlug
  rw [trimWsList_eq_self fun c hc =>
    no_ws_in_replaceWsRuns (mem_of_mem_collapseHyphens hc)]
  rw [collapseHyphens_replaceWsRuns]

theorem ne_of_data_getElem?_ne {s t : String} (i : Nat) {ca cb : Char}
    (hs : s.data[i]? = some ca) (ht : t.data[i]? = some cb) (hne : ca ≠ cb) :
    s ≠ t := by
  intro he
  rw [he] at hs
  rw [hs] at ht
  exact hne (Option.some.inj ht)

theorem data_getElem?_append_left {a : String} (x : String) {i : Nat} {c : Char}
    (h : a.data[i]? = some c) : (a ++ x).data[i]? = some c := by
  obtain ⟨hlt, _⟩ := List.getElem?_eq_some.1 h
  rw [String.data_append, List.getElem?_append_left hlt]
  exact h

theorem sanitizeFilename_all_hyphens {t : String}
    (hna : ∀ c ∈ t.data, lowerAlnum c.toLower = false) :
    ∀ c ∈ (sanitizeFilename t).data, c = '-' := by
  intro c hc
  unfold sanitizeFilename at hc
  have h1 := mem_of_mem_trimWsList hc
  have h2 := mem_of_mem_collapseHyphens h1
  rcases mem_replaceWsRuns h2 with rfl | ⟨h4, h5⟩
  · rfl
  · obtain ⟨h7, h8⟩ := List.mem_filter.1 h4
    obtain ⟨c0, hc0, rfl⟩ := List.mem_map.1 h7
    rw [keepChar, hna c0 hc0, h5] at h8
    simpa using h8

/-! ## Claim theorems -/

/-- **C2** (counterexample).  The claim describes the slug with
"leading/trailing hyphens trimmed", but the source's final `.trim()` runs
after whitespace has already been replaced by hyphens, so it removes
nothing: for the record with title `" x"` on 2024-03-07 the code produces
`2024-03-07--x.md` while the claimed derivation produces `2024-03-07-x.md`. -/
theorem C2_filename_counterexample :
    generateFilename { title := some (some " x") } ⟨2024, 3, 7⟩ = "2024-03-07--x.md" ∧
    claimedFilename { title := some (some " x") } ⟨2024, 3, 7⟩ = "2024-03-07-x.md" ∧
    generateFilename { title := some (some " x") } ⟨2024, 3, 7⟩ ≠
      claimedFilename { title := some (some " x") } ⟨2024, 3, 7⟩ := by
  refine ⟨rfl, rfl, ?_⟩
  decide

/-- **C2** (amended).  For every extraction record and date, the generated
export filename equals the `YYYY-MM-DD` date, a hyphen, then either the
sanitized title slug (lower-cased, non-alphanumeric characters other than
space/hyphen stripped, each whitespace character turned into a hyphen,
repeated hyphens collapsed — leading and trailing hyphens are preserved,
the final whitespace trim being a no-op) or the literal slug
`untitled-document` when no title is present, then `.md`; it is a pure
function of the record and the date, and for title
"Deep Learning: A Primer!" on 2024-03-07 it yields
`2024-03-07-deep-learning-a-primer.md`. -/
theorem C2_filename_generation_amended :
    (∀ (data : DocumentExtraction) (d : Date),
      generateFilename data d =
        formatDate d ++ "-" ++
          (match strTruthy data.title with
           | some t => amendedSlug t
           | none => "untitled-document") ++ ".md") ∧
    generateFilename { title := some (some "Deep Learning: A Primer!") } ⟨2024, 3, 7⟩ =
      "2024-03-07-deep-learning-a-primer.md" := by
  constructor
  · intro data d
    cases h : strTruthy data.title with
    | some t => simp only [generateFilename, h, sanitizeFilename_eq_amendedSlug]
    | none => simp only [generateFilename, h]
  · rfl

/-- **C9.**  Filename generation uses the fallback slug `untitled-document`
exactly when the title is absent, null, or the empty string; any non-empty
title goes through `sanitizeFilename`, and a non-empty title with no
alphanumeric characters sanitizes to a string of hyphens only (possibly
empty), e.g. title `"???"` yields `2024-03-07-.md` rather than the
fallback. -/
theorem C9_fallback_slug_only_for_falsy_title :
    (∀ (data : DocumentExtraction) (d : Date),
      (data.title = none ∨ data.title = some none ∨ data.title = some (some "")) →
      generateFilename data d = formatDate d ++ "-untitled-document.md") ∧
    (∀ (data : DocumentExtraction) (d : Date) (t : String),
      data.title = some (some t) → t ≠ "" →
      generateFilename data d = formatDate d ++ "-" ++ sanitizeFilename t ++ ".md") ∧
    (∀ t : String, (∀ c ∈ t.data, lowerAlnum c.toLower = false) →
      ∀ c ∈ (sanitizeFilename t).data, c = '-') ∧
    generateFilename { title := some (some "???") } ⟨2024, 3, 7⟩ = "2024-03-07-.md" := by
  refine ⟨?_, ?_, fun t h => sanitizeFilename_all_hyphens h, rfl⟩
  · intro data d h
    have hs : strTruthy data.title = none := by
      rcases h with h | h | h <;> rw [h] <;> rfl
    simp only [generateFilename, hs]
    rw [String.append_assoc, String.append_assoc]
    rfl
  · intro data d t ht ht0
    simp only [generateFilename, ht, strTruthy, if_neg ht0]

/-- Witness for C9 at concrete inputs. -/
theorem C9_witness :
    generateFilename { title := (none : Option (Option String)) } ⟨2024, 3, 7⟩ =
      formatDate ⟨2024, 3, 7⟩ ++ "-untitled-document.md" ∧
    generateFilename { title := some (some "War and Peace") } ⟨2024, 3, 7⟩ =
      formatDate ⟨2024, 3, 7⟩ ++ "-" ++ sanitizeFilename "War and Peace" ++ ".md" ∧
    (∀ c ∈ (sanitizeFilename "???").data, c = '-') :=
  ⟨C9_fallback_slug_only_for_falsy_title.1 { title := none } ⟨2024, 3, 7⟩ (Or.inl rfl),
   C9_fallback_slug_only_for_falsy_title.2.1 { title := some (some "War and Peace") }
     ⟨2024, 3, 7⟩ "War and Peace" rfl (by decide),
   C9_fallback_slug_only_for_falsy_title.2.2.1 "???" (by decide)⟩

/-- **C3.**  The normalizer maps each fragment to its markdown text or the
empty string, discards blank entries, and joins the survivors with a double
line-break; the surviving entries form a sublist (hence keep the original
order) of the mapped texts, every survivor is non-blank, and a sequence
with no surviving entries yields the empty string. -/
theorem C3_normalizer_spec (chunks : List Chunk) :
    normalizeChunks chunks =
      String.intercalate "\n\n"
        ((chunks.map (fun c => c.markdown.getD "")).filter
          (fun s => decide (0 < (jsTrim s).length))) ∧
    ((chunks.map chunkText).filter (fun s => decide (0 < (jsTrim s).length))).Sublist
      (chunks.map chunkText) ∧
    (∀ s ∈ (chunks.map chunkText).filter (fun s => decide (0 < (jsTrim s).length)),
      jsTrim s ≠ "") ∧
    ((∀ c ∈ chunks, jsTrim (chunkText c) = "") → normalizeChunks chunks = "") := by
  refine ⟨rfl, List.filter_sublist _, ?_, ?_⟩
  · intro s hs
    have h := (List.mem_filter.1 hs).2
    intro h0
    rw [h0] at h
    simp at h
  · intro hall
    unfold normalizeChunks
    have hnil : (chunks.map chunkText).filter
        (fun s => decide (0 < (jsTrim s).length)) = [] := by
      apply List.filter_eq_nil_iff.2
      intro s hs
      obtain ⟨c, hc, rfl⟩ := List.mem_map.1 hs
      rw [hall c hc]
      simp
    rw [hnil]
    rfl

/-- Witness for C3: an all-blank fragment sequence normalizes to `""`. -/
theorem C3_witness : normalizeChunks [⟨some "  "⟩, ⟨none⟩] = "" :=
  (C3_normalizer_spec [⟨some "  "⟩, ⟨none⟩]).2.2.2 (by decide)

/-- **C4.**  An extract request made while the markdown is blank fails
immediately with the input error message, issues no network call, and
leaves the extractor's machine state (the in-flight flag, the extraction
record, and the stored markdown) unchanged. -/
theorem C4_blank_extract_no_network (md : String) (outcome : ExtractOutcome)
    (s : ExtractorState) (h : jsTrim md = "") :
    handleExtract md outcome s =
      ({ s with error := "No markdown content provided for extraction." }, false) ∧
    (handleExtract md outcome s).2 = false ∧
    (handleExtract md outcome s).1.isExtracting = s.isExtracting ∧
    (handleExtract md outcome s).1.extractedBook = s.extractedBook ∧
    (handleExtract md outcome s).1.extractedMarkdown = s.extractedMarkdown := by
  have hguard : md = "" ∨ (jsTrim md).length = 0 := Or.inr (by rw [h]; rfl)
  have h1 : handleExtract md outcome s =
      ({ s with error := "No markdown content provided for extraction." }, false) := by
    unfold handleExtract
    rw [if_pos hguard]
  exact ⟨h1, by rw [h1], by rw [h1], by rw [h1], by rw [h1]⟩

/-- Witness for C4 at a whitespace-only markdown input. -/
theorem C4_witness :
    handleExtract "   " (.ok none) ⟨false, some {}, "kept", ""⟩ =
      (⟨false, some {}, "kept", "No markdown content provided for extraction."⟩, false) :=
  (C4_blank_extract_no_network "   " (.ok none) ⟨false, some {}, "kept", ""⟩ (by decide)).1

/-- **C6.**  Validating an object payload that has none of the seven declared
fields succeeds and yields the record with every field absent: absence is
never itself a validation error. -/
theorem C6_all_fields_absent_succeeds (fields : List (String × Json))
    (ht : getField fields "title" = none) (ha : getField fields "authors" = none)
    (hy : getField fields "publishedYear" = none) (hg : getField fields "genres" = none)
    (hp : getField fields "pages" = none) (hl : getField fields "language" = none)
    (hpub : getField fields "publisher" = none) :
    DocumentExtractionSchema.safeParse (.obj fields) =
      .ok { title := none, authors := none, publishedYear := none, genres := none,
            pages := none, language := none, publisher := none } := by
  simp only [DocumentExtractionSchema.safeParse, documentIssues,
    ht, ha, hy, hg, hp, hl, hpub]
  rfl

/-- Witness for C6: the empty object validates to the all-absent record. -/
theorem C6_witness :
    DocumentExtractionSchema.safeParse (.obj []) =
      .ok { title := none, authors := none, publishedYear := none, genres := none,
            pages := none, language := none, publisher := none } :=
  C6_all_fields_absent_succeeds [] rfl rfl rfl rfl rfl rfl rfl

/-- **C8.**  Selecting a new document, from any pipeline state, resets the
transient state: markdown and error message are cleared, the status is kept
(idle stays idle), the extractor component is unmounted (so its extraction
record is discarded), and no extraction record remains visible. -/
theorem C8_new_selection_resets (s : WorkflowState) (files : List String)
    (e : ExtractorState) :
    handleFileChange files s =
      { s with selectedFile := files.head?, markdown := "", parseError := "" } ∧
    (handleFileChange files s).markdown = "" ∧
    (handleFileChange files s).parseError = "" ∧
    (handleFileChange files s).status = s.status ∧
    rendersBookExtractor (handleFileChange files s) = false ∧
    visibleExtraction (handleFileChange files s) e = none := by
  refine ⟨rfl, rfl, rfl, rfl, ?_, ?_⟩
  · simp [rendersBookExtractor, handleFileChange]
  · simp [visibleExtraction, rendersBookExtractor, handleFileChange]

theorem ne_empty_append_of_left {a : String} (x : String) (ha : a ≠ "") :
    a ++ x ≠ "" := by
  intro h
  apply ha
  have h1 := congrArg String.data h
  rw [String.data_append] at h1
  exact String.ext (List.append_eq_nil.1 h1).1

theorem getField_cons_ne (k : String) (v : Json) (fields : List (String × Json))
    (key : String) (h : k ≠ key) :
    getField ((k, v) :: fields) key = getField fields key := by
  unfold getField
  rw [List.find?_cons_of_neg]
  simp [h]

/-- **C5.**  Validating an object payload whose `pages` entry is an integer
that is zero or negative fails, the failure reports the `pages` field path,
and the orchestrator aggregates all field-level violations into one message
with each violation formatted as `<field path>: <violation>`. -/
theorem C5_nonpositive_pages_fails (fields : List (String × Json)) (n : Int)
    (hp : getField fields "pages" = some (.num n)) (hn : n ≤ 0) :
    ∃ issues,
      DocumentExtractionSchema.safeParse (.obj fields) = .error issues ∧
      ((["pages"], "Number must be greater than 0") : Issue) ∈ issues ∧
      validationFailureMessage issues =
        "Schema validation failed: " ++
          String.intercalate ", "
            (issues.map (fun i => String.intercalate "." i.1 ++ ": " ++ i.2)) := by
  have hlt : ¬ (0 < n) := by omega
  have hpages : parseOptNullable (checkPositiveInt ["pages"]) (getField fields "pages") =
      .error [(["pages"], "Number must be greater than 0")] := by
    rw [hp]
    simp [parseOptNullable, checkPositiveInt, hlt]
  have hmem : ((["pages"], "Number must be greater than 0") : Issue) ∈
      documentIssues fields := by
    unfold documentIssues
    rw [hpages]
    simp [errsOf, List.mem_append]
  have hne : documentIssues fields ≠ [] := List.ne_nil_of_mem hmem
  have heq : DocumentExtractionSchema.safeParse (.obj fields) =
      .error (documentIssues fields) := by
    simp only [DocumentExtractionSchema.safeParse]
    rw [if_neg hne]
  exact ⟨documentIssues fields, heq, hmem, rfl⟩

/-- Witness for C5 at the payload with a zero page count. -/
theorem C5_witness :
    ∃ issues,
      DocumentExtractionSchema.safeParse (.obj [("pages", .num 0)]) = .error issues ∧
      ((["pages"], "Number must be greater than 0") : Issue) ∈ issues ∧
      validationFailureMessage issues =
        "Schema validation failed: " ++
          String.intercalate ", "
            (issues.map (fun i => String.intercalate "." i.1 ++ ": " ++ i.2)) :=
  C5_nonpositive_pages_fails [("pages", .num 0)] 0 rfl (by decide)

/-- **C10.**  Validation strips undeclared keys silently: adding a key other
than the seven declared ones to a payload never changes the validation
result (so it never causes an error and never reaches the record), and
likewise inside the nested publisher object for keys other than `name` and
`location`. -/
theorem C10_unknown_keys_stripped :
    (∀ (k : String) (v : Json) (fields : List (String × Json)),
      k ∉ (["title", "authors", "publishedYear", "genres", "pages", "language",
            "publisher"] : List String) →
      DocumentExtractionSchema.safeParse (.obj ((k, v) :: fields)) =
        DocumentExtractionSchema.safeParse (.obj fields)) ∧
    (∀ (k : String) (v : Json) (fs : List (String × Json)) (path : List String),
      k ∉ (["name", "location"] : List String) →
      checkPublisher path (.obj ((k, v) :: fs)) = checkPublisher path (.obj fs)) := by
  constructor
  · intro k v fields h
    simp only [List.mem_cons, List.not_mem_nil, or_false, not_or] at h
    obtain ⟨h1, h2, h3, h4, h5, h6, h7⟩ := h
    simp only [DocumentExtractionSchema.safeParse, documentIssues,
      getField_cons_ne k v fields "title" h1,
      getField_cons_ne k v fields "authors" h2,
      getField_cons_ne k v fields "publishedYear" h3,
      getField_cons_ne k v fields "genres" h4,
      getField_cons_ne k v fields "pages" h5,
      getField_cons_ne k v fields "language" h6,
      getField_cons_ne k v fields "publisher" h7]
  · intro k v fs path h
    simp only [List.mem_cons, List.not_mem_nil, or_false, not_or] at h
    obtain ⟨h1, h2⟩ := h
    simp only [checkPublisher,
      getField_cons_ne k v fs "name" h1,
      getField_cons_ne k v fs "location" h2]

/-- Witness for C10 at a payload carrying only an undeclared `isbn` key. -/
theorem C10_witness :
    DocumentExtractionSchema.safeParse (.obj [("isbn", .str "123")]) =
      DocumentExtractionSchema.safeParse (.obj []) ∧
    checkPublisher ["publisher"] (.obj [("isbn", .str "123")]) =
      checkPublisher ["publisher"] (.obj []) :=
  ⟨C10_unknown_keys_stripped.1 "isbn" (.str "123") [] (by decide),
   C10_unknown_keys_stripped.2 "isbn" (.str "123") [] ["publisher"] (by decide)⟩

/-- **C1.**  When the client is ready and a document is selected, a parse
request puts the workflow into the `parsing` state, and every failing
outcome — transport failure, non-success HTTP status, or a response whose
normalized markdown is blank (in particular an all-blank or empty fragment
sequence) — lands in the error state, the error message surfacing the
upstream response body when one is available. -/
theorem C1_parse_failure_error_state (s : WorkflowState)
    (hf : s.selectedFile.isSome = true) :
    (parseStarted s).status = .parsing ∧
    (∀ msg, msg ≠ "" →
      (handleParsePdf true (.transportFail msg) s).parseError = msg ∧
      (handleParsePdf true (.transportFail msg) s).status = .idle ∧
      errorState (handleParsePdf true (.transportFail msg) s)) ∧
    (∀ body,
      (handleParsePdf true (.httpError body) s).parseError =
        "Parse request failed: " ++ body ∧
      errorState (handleParsePdf true (.httpError body) s)) ∧
    (∀ resp, jsTrim (parsedMarkdown resp) = "" →
      (handleParsePdf true (.ok resp) s).parseError =
        "Parsing completed but no markdown content was returned." ∧
      errorState (handleParsePdf true (.ok resp) s)) ∧
    (∀ chunks : List Chunk, (∀ c ∈ chunks, jsTrim (chunkText c) = "") →
      errorState (handleParsePdf true (.ok ⟨some chunks⟩) s)) := by
  obtain ⟨f, hfile⟩ := Option.isSome_iff_exists.1 hf
  have hguard : ∀ outcome, handleParsePdf true outcome s =
      settleParse outcome (parseStarted s) := by
    intro outcome
    unfold handleParsePdf
    rw [if_neg (by simp), if_neg (by simp [hfile])]
  refine ⟨rfl, ?_, ?_, ?_, ?_⟩
  · intro msg hmsg
    refine ⟨by rw [hguard]; rfl, by rw [hguard]; rfl, ?_⟩
    rw [errorState, hguard]
    exact hmsg
  · intro body
    refine ⟨by rw [hguard]; rfl, ?_⟩
    rw [errorState, hguard]
    exact ne_empty_append_of_left body (by decide)
  · intro resp h
    constructor
    · rw [hguard]
      simp [settleParse, h]
    · rw [errorState, hguard]
      simp [settleParse, h]
  · intro chunks hall
    have hnil : (chunks.map chunkText).filter
        (fun s => decide (0 < (jsTrim s).length)) = [] := by
      apply List.filter_eq_nil_iff.2
      intro str hs
      obtain ⟨c, hc, rfl⟩ := List.mem_map.1 hs
      rw [hall c hc]
      simp
    have hjt : jsTrim (parsedMarkdown ⟨some chunks⟩) = "" := by
      simp only [parsedMarkdown, normalizeChunks, hnil]
      rfl
    rw [errorState, hguard]
    simp [settleParse, hjt]

/-- Witness for C1: a failing HTTP status and an all-blank fragment response
both land in the error state, the former surfacing the response body. -/
theorem C1_witness :
    errorState (handleParsePdf true (.httpError "upstream body")
      ⟨some "doc.pdf", .idle, "", ""⟩) ∧
    (handleParsePdf true (.httpError "upstream body")
      ⟨some "doc.pdf", .idle, "", ""⟩).parseError =
        "Parse request failed: " ++ "upstream body" ∧
    errorState (handleParsePdf true (.ok ⟨some [⟨some " "⟩, ⟨none⟩]⟩)
      ⟨some "doc.pdf", .idle, "", ""⟩) :=
  ⟨((C1_parse_failure_error_state ⟨some "doc.pdf", .idle, "", ""⟩ rfl).2.2.1
      "upstream body").2,
   ((C1_parse_failure_error_state ⟨some "doc.pdf", .idle, "", ""⟩ rfl).2.2.1
      "upstream body").1,
   (C1_parse_failure_error_state ⟨some "doc.pdf", .idle, "", ""⟩ rfl).2.2.2.2
      [⟨some " "⟩, ⟨none⟩] (by decide)⟩

/-- **C7.**  For a validated record with only `title` and `authors` present,
the export artifact's section list is exactly: the title heading, the
metadata heading, the authors line, the horizontal separator, the
extraction-timestamp line and the method line (in the source's fixed field
order), followed by the document-content sections; it contains the required
pieces, contains no publisher line and no genres line, and the
document-content sections appear precisely when a non-blank full text was
supplied. -/
theorem C7_export_title_authors_only (data : DocumentExtraction) (t : String)
    (as : List String) (now : String) (fullMarkdown : Option String)
    (ht : data.title = some (some t)) (ht0 : t ≠ "")
    (ha : data.authors = some (some as)) (ha0 : as ≠ [])
    (hy : data.publishedYear = none) (hg : data.genres = none)
    (hp : data.pages = none) (hl : data.language = none)
    (hpub : data.publisher = none) :
    markdownSections data now fullMarkdown =
      ["# " ++ t ++ "\n", "## Metadata\n",
       "**Authors:** " ++ String.intercalate ", " as ++ "\n",
       "\n---\n", "*Extracted on: " ++ now ++ "*\n",
       "*Extraction method: ADE PDF Parse & Extract*\n"] ++
        docContentSections fullMarkdown ∧
    ("# " ++ t ++ "\n") ∈ markdownSections data now fullMarkdown ∧
    ("**Authors:** " ++ String.intercalate ", " as ++ "\n") ∈
      markdownSections data now fullMarkdown ∧
    "\n---\n" ∈ markdownSections data now fullMarkdown ∧
    ("*Extracted on: " ++ now ++ "*\n") ∈ markdownSections data now fullMarkdown ∧
    (∀ str ∈ markdownSections data now none, ∀ rest : String,
      str ≠ "**Publisher:** " ++ rest ∧ str ≠ "**Genres:** " ++ rest) ∧
    (docContentSections fullMarkdown ≠ [] ↔
      ∃ fm, fullMarkdown = some fm ∧ jsTrim fm ≠ "") := by
  have has : 0 < as.length := List.length_pos.2 ha0
  have hsec : ∀ f : Option String, markdownSections data now f =
      ["# " ++ t ++ "\n", "## Metadata\n",
       "**Authors:** " ++ String.intercalate ", " as ++ "\n",
       "\n---\n", "*Extracted on: " ++ now ++ "*\n",
       "*Extraction method: ADE PDF Parse & Extract*\n"] ++ docContentSections f := by
    intro f
    simp [markdownSections, strTruthy, intTruthy, publisherSections,
      ht, ha, hy, hg, hp, hl, hpub, ht0, has]
  refine ⟨hsec fullMarkdown, ?_, ?_, ?_, ?_, ?_, ?_⟩
  · rw [hsec fullMarkdown]; simp
  · rw [hsec fullMarkdown]; simp
  · rw [hsec fullMarkdown]; simp
  · rw [hsec fullMarkdown]; simp
  · intro str hstr rest
    rw [hsec none] at hstr
    simp only [docContentSections, List.append_nil, List.mem_cons,
      List.not_mem_nil, or_false] at hstr
    rcases hstr with rfl | rfl | rfl | rfl | rfl | rfl
    · exact ⟨ne_of_data_getElem?_ne 0
          (data_getElem?_append_left "\n" (data_getElem?_append_left t rfl))
          (data_getElem?_append_left rest rfl) (by decide),
        ne_of_data_getElem?_ne 0
          (data_getElem?_append_left "\n" (data_getElem?_append_left t rfl))
          (data_getElem?_append_left rest rfl) (by decide)⟩
    · exact ⟨ne_of_data_getElem?_ne 0 rfl (data_getElem?_append_left rest rfl)
          (by decide),
        ne_of_data_getElem?_ne 0 rfl (data_getElem?_append_left rest rfl)
          (by decide)⟩
    · exact ⟨ne_of_data_getElem?_ne 2
          (data_getElem?_append_left "\n"
            (data_getElem?_append_left (String.intercalate ", " as) rfl))
          (data_getElem?_append_left rest rfl) (by decide),
        ne_of_data_getElem?_ne 2
          (data_getElem?_append_left "\n"
            (data_getElem?_append_left (String.intercalate ", " as) rfl))
          (data_getElem?_append_left rest rfl) (by decide)⟩
    · exact ⟨ne_of_data_getElem?_ne 0 rfl (data_getElem?_append_left rest rfl)
          (by decide),
        ne_of_data_getElem?_ne 0 rfl (data_getElem?_append_left rest rfl)
          (by decide)⟩
    · exact ⟨ne_of_data_getElem?_ne 1
          (data_getElem?_append_left ("*\n")
            (data_getElem?_append_left now rfl))
          (data_getElem?_append_left rest rfl) (by decide),
        ne_of_data_getElem?_ne 1
          (data_getElem?_append_left ("*\n")
            (data_getElem?_append_left now rfl))
          (data_getElem?_append_left rest rfl) (by decide)⟩
    · exact ⟨ne_of_data_getElem?_ne 1 rfl (data_getElem?_append_left rest rfl)
          (by decide),
        ne_of_data_getElem?_ne 1 rfl (data_getElem?_append_left rest rfl)
          (by decide)⟩
  · constructor
    · intro hne2
      cases fullMarkdown with
      | none => exact absurd rfl hne2
      | some fm =>
        refine ⟨fm, rfl, ?_⟩
        by_cases hfm : fm ≠ "" ∧ jsTrim fm ≠ ""
        · exact hfm.2
        · exfalso
          apply hne2
          simp only [docContentSections, if_neg hfm]
    · rintro ⟨fm, rfl, hfm⟩
      have hfm0 : fm ≠ "" := by
        intro h0
        rw [h0] at hfm
        exact hfm rfl
      have hcond : fm ≠ "" ∧ jsTrim fm ≠ "" := ⟨hfm0, hfm⟩
      simp only [docContentSections, if_pos hcond]
      simp

/-- Witness for C7 at a concrete title-and-authors-only record. -/
theorem C7_witness :
    markdownSections
      { title := some (some "Dune"), authors := some (some ["Frank Herbert"]) }
      "1/1/2024, 10:00:00 AM" none =
      ["# " ++ "Dune" ++ "\n", "## Metadata\n",
       "**Authors:** " ++ String.intercalate ", " ["Frank Herbert"] ++ "\n",
       "\n---\n", "*Extracted on: " ++ "1/1/2024, 10:00:00 AM" ++ "*\n",
       "*Extraction method: ADE PDF Parse & Extract*\n"] ++ docContentSections none :=
  (C7_export_title_authors_only
    { title := some (some "Dune"), authors := some (some ["Frank Herbert"]) }
    "Dune" ["Frank Herbert"] "1/1/2024, 10:00:00 AM" none
    rfl (by decide) rfl (by decide) rfl rfl rfl rfl rfl).1

end ViteSite
